import Mathlib

/-!
Verification of the sandboxed program chain and host-call contract layer
of src/lib/bpf.c: the filter-program chain (lookup / add / free), the host
function registry bound by register_functions, the map-operation wrappers
(ubpf_map_lookup / update / add / delete), the hash, timestamp and
load-and-compile primitives.

Shallow embedding conventions:
- an ovs_be16 instance id is a Nat compared by equality;
- the C `int` ordinal argument of the chain lookup is an Int;
- a possibly-null C pointer is an Option;
- struct ovs_list chains are Lean lists in insertion (head-to-tail) order;
- the double pointer `struct ovs_list **` of the chain lookup is
  Option (Option Chain): the outer Option is the pointer itself, the inner
  one the pointed-to chain pointer;
- 64-bit and 32-bit C integers are Nat with explicit reductions mod 2 ^ 64
  and 2 ^ 32 where the code truncates.
-/

namespace Oko

/-- The seven host primitives of src/lib/bpf.c, as abstract tags. -/
inductive HostFn where
  | mapLookup
  | mapUpdate
  | mapDelete
  | mapAdd
  | timeGetNs
  | hash
  | printf
  deriving DecidableEq, Repr

/-- One ubpf_register_function call: numeric call id, symbol name, primitive. -/
structure Registration where
  id : Nat
  name : String
  fn : HostFn
  deriving DecidableEq, Repr

/-- Embedding of register_functions (src/lib/bpf.c lines 352-362): the fixed
sequence of ubpf_register_function calls, in source order. -/
def register_functions : List Registration :=
  [ ⟨1, "ubpf_map_lookup", HostFn.mapLookup⟩,
    ⟨2, "ubpf_map_update", HostFn.mapUpdate⟩,
    ⟨3, "ubpf_map_delete", HostFn.mapDelete⟩,
    ⟨4, "ubpf_map_add", HostFn.mapAdd⟩,
    ⟨5, "ubpf_time_get_ns", HostFn.timeGetNs⟩,
    ⟨6, "ubpf_hash", HostFn.hash⟩,
    ⟨7, "ubpf_printf", HostFn.printf⟩ ]

/-- The primitive registered into a VM under numeric call id n. -/
def registeredAt (n : Nat) : Option HostFn :=
  (register_functions.find? (fun r => r.id = n)).map (fun r => r.fn)

/-- The numbering written in the spec (section 4.2 enumeration, section 6
host-call ABI): 1 = map lookup, 2 = map update, 3 = map add, 4 = map delete,
5 = timestamp, 6 = hash, 7 = diagnostic print. Stated from the words of the
spec, for comparison with registeredAt. -/
def specNumbering (n : Nat) : Option HostFn :=
  match n with
  | 1 => some HostFn.mapLookup
  | 2 => some HostFn.mapUpdate
  | 3 => some HostFn.mapAdd
  | 4 => some HostFn.mapDelete
  | 5 => some HostFn.timeGetNs
  | 6 => some HostFn.hash
  | 7 => some HostFn.printf
  | _ => none

/-- struct filter_prog: instance identity, the compiled VM (opaque handle),
and the expected classification result. -/
structure FilterProg where
  fp_instance_id : Nat
  vm : Nat
  expected_result : Nat
  deriving DecidableEq, Repr

/-- A filter program chain: the ovs_list contents in insertion order. -/
abbrev Chain := List FilterProg

/-- The LIST_FOR_EACH loop of filter_prog_chain_lookup (src/lib/bpf.c lines
79-87): i counts every visited entry (it is the absolute 1-based position);
on the first entry whose instance id matches, the loop either returns it
(when last_fp_pos equals i) or breaks out, falling through to NULL. -/
def lookupLoop (fps : List FilterProg) (fp_instance_id : Nat)
    (last_fp_pos : Int) (i : Nat) : Option FilterProg :=
  match fps with
  | [] => none
  | fp :: rest =>
    if fp_instance_id = fp.fp_instance_id then
      if last_fp_pos ≠ ((i + 1 : Nat) : Int) then none
      else some fp
    else lookupLoop rest fp_instance_id last_fp_pos (i + 1)

/-- filter_prog_chain_lookup (src/lib/bpf.c lines 67-89). The outer Option
is the struct ovs_list ** argument, the inner one the pointed-to chain. -/
def filter_prog_chain_lookup (filter_prog_chain : Option (Option Chain))
    (fp_instance_id : Nat) (last_fp_pos : Int) : Option FilterProg :=
  match filter_prog_chain with
  | none => none
  | some none => none
  | some (some c) => lookupLoop c fp_instance_id last_fp_pos 0

/-- Stated from the words of the spec (section 4.3 lookup): scan the chain
in order, keeping a running count of the entries whose instance id matches,
and return the entry at which that running count reaches the desired
ordinal (1-based). Written only for comparison with the source embedding
filter_prog_chain_lookup. -/
def lookupByOrdinalLoop (fps : List FilterProg) (fp_instance_id : Nat)
    (desired_ordinal : Int) (count : Nat) : Option FilterProg :=
  match fps with
  | [] => none
  | fp :: rest =>
    if fp_instance_id = fp.fp_instance_id then
      if ((count + 1 : Nat) : Int) = desired_ordinal then some fp
      else lookupByOrdinalLoop rest fp_instance_id desired_ordinal (count + 1)
    else lookupByOrdinalLoop rest fp_instance_id desired_ordinal count

/-- The spec-described running-count lookup over a chain pointer, with the
same not-found behavior on an absent chain as the source function. -/
def lookupByOrdinal (filter_prog_chain : Option (Option Chain))
    (fp_instance_id : Nat) (desired_ordinal : Int) : Option FilterProg :=
  match filter_prog_chain with
  | none => none
  | some none => none
  | some (some c) => lookupByOrdinalLoop c fp_instance_id desired_ordinal 0

/-- filter_prog_chain_add (src/lib/bpf.c lines 91-115), as a function of the
pointed-to chain pointer (the C code writes the lazily allocated chain back
through its ovs_list ** argument, so we return the updated chain): allocate
an empty chain when absent, scan for any entry with the same instance id,
and append a fresh node at the tail only when none was found. Returns
(!found, updated chain). -/
def filter_prog_chain_add (filter_prog_chain : Option Chain)
    (fp_instance_id : Nat) (vm : Nat) (expected_result : Nat) :
    Bool × Chain :=
  let c : Chain :=
    match filter_prog_chain with
    | none => []
    | some c => c
  let found := c.any (fun fp => fp_instance_id = fp.fp_instance_id)
  if found then (false, c)
  else (true, c ++ [⟨fp_instance_id, vm, expected_result⟩])

/-- filter_prog_chain_free (src/lib/bpf.c lines 117-127): on a non-null
chain, pop and free every member, then free the container; on a null chain,
do nothing. Result: (members freed, chain state afterwards — always gone). -/
def filter_prog_chain_free (filter_prog_chain : Option Chain) :
    List FilterProg × Option Chain :=
  match filter_prog_chain with
  | none => ([], none)
  | some c => (c, none)

/-- The operation table of a map backend (struct ubpf_map_ops): each of the
four operations may be absent (a null function pointer). In the C code each
operation also receives the map itself; here the backend closure stands for
the pair (operation, map). A lookup returns a possibly-null value pointer;
update / add / delete return an int status. -/
structure MapOps where
  map_lookup : Option (Nat → Option Nat)
  map_update : Option (Nat → Nat → Int)
  map_add : Option (Nat → Int)
  map_delete : Option (Nat → Int)

/-- struct ubpf_map: the borrowed map handle seen by the wrappers. -/
structure UbpfMap where
  ops : MapOps

/-- ubpf_map_lookup (src/lib/bpf.c lines 129-142): NULL when the map is
absent, when its lookup operation is unset, or when the key is null;
otherwise delegate to the backend and return its result verbatim. -/
def ubpf_map_lookup (map : Option UbpfMap) (key : Option Nat) : Option Nat :=
  match map with
  | none => none
  | some m =>
    match m.ops.map_lookup with
    | none => none
    | some f =>
      match key with
      | none => none
      | some k => f k

/-- ubpf_map_update (src/lib/bpf.c lines 163-179): -1 absent map, -2 unset
update operation, -3 null key, -4 null item; otherwise the backend status
verbatim. -/
def ubpf_map_update (map : Option UbpfMap) (key : Option Nat)
    (item : Option Nat) : Int :=
  match map with
  | none => -1
  | some m =>
    match m.ops.map_update with
    | none => -2
    | some f =>
      match key with
      | none => -3
      | some k =>
        match item with
        | none => -4
        | some it => f k it

/-- ubpf_map_add (src/lib/bpf.c lines 200-213): -1 absent map, -2 unset add
operation, -3 null item; otherwise the backend status verbatim. -/
def ubpf_map_add (map : Option UbpfMap) (item : Option Nat) : Int :=
  match map with
  | none => -1
  | some m =>
    match m.ops.map_add with
    | none => -2
    | some f =>
      match item with
      | none => -3
      | some it => f it

/-- ubpf_map_delete (src/lib/bpf.c lines 234-247): -1 absent map, -2 unset
delete operation, -3 null key; otherwise the backend status verbatim. -/
def ubpf_map_delete (map : Option UbpfMap) (key : Option Nat) : Int :=
  match map with
  | none => -1
  | some m =>
    match m.ops.map_delete with
    | none => -2
    | some f =>
      match key with
      | none => -3
      | some k => f k

/-- Byte-addressed memory: the byte stored at each address. -/
def Mem : Type := Nat → Nat

/-- The length-many bytes starting at addr (each reduced mod 256, the range
a C byte ranges over). -/
def readBytes (mem : Mem) (addr : Nat) (length : Nat) : List Nat :=
  (List.range length).map (fun i => mem (addr + i) % 256)

/-- Modelled from the spec: hashlittle, the external hash routine called by
ubpf_hash, is provided by the surrounding library and is not part of this
repository source. The spec describes it as "a fixed, well-known
non-cryptographic mixing function (seed 0)" over a byte range and a length.
It is modelled here as one fixed pure mixing function of the byte sequence,
the length and the seed, reduced to 32 bits. -/
def hashlittle (bytes : List Nat) (length : Nat) (seed : Nat) : Nat :=
  (bytes.take length).foldl
    (fun h b => (h * 16777619 + b % 256 + length) % 2 ^ 32)
    ((seed + length) % 2 ^ 32)

/-- ubpf_hash (src/lib/bpf.c lines 327-331): hashlittle(item, (uint32_t)size, 0).
The 64-bit size argument is truncated to its low 32 bits before hashing;
the hashed bytes are the ones the truncated length covers. -/
def ubpf_hash (mem : Mem) (item : Nat) (size : Nat) : Nat :=
  hashlittle (readBytes mem item (size % 2 ^ 32)) (size % 2 ^ 32) 0

/-- Binary length of a natural number, by fuel-bounded halving (structural
recursion so that concrete values reduce inside the kernel). -/
def bitLenAux : Nat → Nat → Nat
  | 0, _ => 0
  | fuel + 1, n => if n = 0 then 0 else bitLenAux fuel (n / 2) + 1

/-- Binary length of n. The fuel 1100 is exact for every n below 2 ^ 1100,
which covers every finite IEEE double (doubles overflow past 2 ^ 1024) and
in particular every value the timestamp computation can produce. -/
def bitLen (n : Nat) : Nat := bitLenAux 1100 n

/-- Round a natural number to the nearest IEEE double (53-bit significand,
round to nearest, ties to even). Every value below 2 ^ 53 is exact; larger
values keep their top 53 bits, rounding the rest. -/
def round53 (n : Nat) : Nat :=
  if n < 2 ^ 53 then n
  else
    let e := bitLen n - 53
    let q := n / 2 ^ e
    let r := n % 2 ^ e
    let half := 2 ^ (e - 1)
    if r < half then q * 2 ^ e
    else if half < r then (q + 1) * 2 ^ e
    else if q % 2 = 0 then q * 2 ^ e else (q + 1) * 2 ^ e

/-- ubpf_time_get_ns (src/lib/bpf.c lines 298-306), as a function of the
clock reading (tv_sec, tv_nsec) it obtains. The C expression
tv_nsec + tv_sec * 1.0e9 is computed in double precision: tv_sec is
converted to double, multiplied by the (exactly representable) double 1.0e9
with the product rounded, tv_nsec is converted to double and added with the
sum rounded; the final integral double is converted to uint64_t exactly
(all values involved stay far below 2 ^ 64). -/
def ubpf_time_get_ns (tv_sec : Nat) (tv_nsec : Nat) : Nat :=
  round53 (round53 (round53 tv_sec * 1000000000) + round53 tv_nsec)

/-- A concrete sample backend with all four operations attached, used to
exercise the delegation paths of the four wrappers. -/
def sampleBackend : MapOps :=
  ⟨some (fun k => some (k + 1)),
   some (fun k it => (k : Int) + (it : Int)),
   some (fun it => (it : Int)),
   some (fun k => (k : Int) - 7)⟩

/-- A borrowed map handle over sampleBackend. -/
def sampleMap : UbpfMap := ⟨sampleBackend⟩

/-- A backend with every operation unset (all null function pointers). -/
def bareBackend : MapOps := ⟨none, none, none, none⟩

/-- A borrowed map handle over bareBackend. -/
def bareMap : UbpfMap := ⟨bareBackend⟩

/-- Outcome of a load_filter_prog call: the returned bool, the diagnostic
messages logged, and the diagnostic buffers released with free(). -/
structure LoadOutcome where
  success : Bool
  logged : List String
  freed : List String
  deriving DecidableEq, Repr

/-- The diagnostic buffers the external library allocates during one
load_filter_prog call. Modelled from the spec: ubpf_load_elf and
ubpf_compile are external collaborators ("parse image bytes ... or fail
with diagnostic"); per the spec they "may produce a heap-allocated
human-readable string on failure", so a diagnostic is allocated exactly by
the failing step, and ubpf_compile only runs when the load step succeeded. -/
def allocatedDiagnostics (loadErr : Option String)
    (compileErr : Option String) : List String :=
  match loadErr with
  | some e => [e]
  | none =>
    match compileErr with
    | some e => [e]
    | none => []

/-- load_filter_prog (src/lib/bpf.c lines 46-65), as a function of the two
external outcomes: loadErr is the diagnostic of ubpf_load_elf when it fails
(none on success) and compileErr likewise for ubpf_compile. On a load
failure the code logs the message, frees the buffer and returns false; on a
compile failure likewise; otherwise it returns true. -/
def load_filter_prog (loadErr : Option String) (compileErr : Option String) :
    LoadOutcome :=
  match loadErr with
  | some errmsg =>
    ⟨false, ["Failed to load code: " ++ errmsg], [errmsg]⟩
  | none =>
    match compileErr with
    | some errmsg =>
      ⟨false, ["Failed to compile: " ++ errmsg], [errmsg]⟩
    | none => ⟨true, [], []⟩

/-!
Theorems. Shared characterization lemmas about the chain operations come
first, then one theorem per claim.
-/

/-- The loop of filter_prog_chain_lookup returns some fp exactly when fp is
the first entry of the scanned suffix whose instance id matches and the
ordinal argument equals i plus the absolute 1-based position of fp in that
suffix. -/
theorem lookupLoop_eq_some_iff (c : List FilterProg) (id : Nat) (n : Int)
    (i : Nat) (fp : FilterProg) :
    lookupLoop c id n i = some fp ↔
      ∃ l1 l2, c = l1 ++ fp :: l2 ∧ (∀ x ∈ l1, id ≠ x.fp_instance_id) ∧
        id = fp.fp_instance_id ∧ n = ((i + l1.length + 1 : Nat) : Int) := by
  induction c generalizing i with
  | nil => simp [lookupLoop]
  | cons x rest ih =>
    by_cases hx : id = x.fp_instance_id
    · rw [lookupLoop, if_pos hx]
      constructor
      · intro h
        by_cases hn : n ≠ ((i + 1 : Nat) : Int)
        · rw [if_pos hn] at h
          exact absurd h (by simp)
        · push_neg at hn
          rw [if_neg (by simpa using hn)] at h
          obtain rfl : x = fp := by injection h
          exact ⟨[], rest, rfl, by simp, hx, by simpa using hn⟩
      · rintro ⟨l1, l2, hc, hl1, hid, hn⟩
        cases l1 with
        | nil =>
          simp only [List.nil_append, List.cons.injEq] at hc
          obtain ⟨rfl, rfl⟩ := hc
          rw [if_neg (by simpa using hn)]
        | cons y l1 =>
          simp only [List.cons_append, List.cons.injEq] at hc
          exact absurd (hc.1 ▸ hx) (hl1 y (by simp))
    · rw [lookupLoop, if_neg hx]
      rw [ih (i + 1)]
      constructor
      · rintro ⟨l1, l2, hc, hl1, hid, hn⟩
        refine ⟨x :: l1, l2, by rw [hc]; rfl, ?_, hid, ?_⟩
        · intro y hy
          rcases List.mem_cons.mp hy with rfl | hy
          · exact hx
          · exact hl1 y hy
        · simp only [List.length_cons]
          omega
      · rintro ⟨l1, l2, hc, hl1, hid, hn⟩
        cases l1 with
        | nil =>
          simp only [List.nil_append, List.cons.injEq] at hc
          exact absurd (hc.1 ▸ hid) hx
        | cons y l1 =>
          simp only [List.cons_append, List.cons.injEq] at hc
          refine ⟨l1, l2, hc.2, fun z hz => hl1 z (by simp [hz]), hid, ?_⟩
          simp only [List.length_cons] at hn
          omega

/-- Over a chain whose instance ids are pairwise distinct, the lookup loop
returns some fp exactly when fp sits at the absolute position the ordinal
argument demands and carries the requested id. -/
theorem lookupLoop_nodup_eq_some_iff (c : List FilterProg) (id : Nat)
    (n : Int) (i : Nat) (fp : FilterProg)
    (h : (c.map FilterProg.fp_instance_id).Nodup) :
    lookupLoop c id n i = some fp ↔
      ∃ k : Nat, n = ((i + k + 1 : Nat) : Int) ∧ c.get? k = some fp ∧
        id = fp.fp_instance_id := by
  induction c generalizing i with
  | nil => simp [lookupLoop]
  | cons x rest ih =>
    simp only [List.map_cons, List.nodup_cons] at h
    obtain ⟨hx_notin, h_rest⟩ := h
    by_cases hx : id = x.fp_instance_id
    · rw [lookupLoop, if_pos hx]
      constructor
      · intro hsome
        by_cases hn : n ≠ ((i + 1 : Nat) : Int)
        · rw [if_pos hn] at hsome
          exact absurd hsome (by simp)
        · push_neg at hn
          rw [if_neg (by simpa using hn)] at hsome
          obtain rfl : x = fp := by injection hsome
          exact ⟨0, by simpa using hn, rfl, hx⟩
      · rintro ⟨k, hn, hget, hid⟩
        cases k with
        | zero =>
          obtain rfl : x = fp := by simpa using hget
          rw [if_neg (by simpa using hn)]
        | succ j =>
          simp only [List.get?_cons_succ] at hget
          have hmem : fp ∈ rest := List.get?_mem hget
          have : fp.fp_instance_id ∈ rest.map FilterProg.fp_instance_id :=
            List.mem_map_of_mem _ hmem
          rw [← hid, hx] at this
          exact absurd this hx_notin
    · rw [lookupLoop, if_neg hx, ih (i + 1) h_rest]
      constructor
      · rintro ⟨k, hn, hget, hid⟩
        exact ⟨k + 1, by push_cast at hn ⊢; omega, by simpa using hget, hid⟩
      · rintro ⟨k, hn, hget, hid⟩
        cases k with
        | zero =>
          obtain rfl : x = fp := by simpa using hget
          exact absurd hid hx
        | succ j =>
          simp only [List.get?_cons_succ] at hget
          exact ⟨j, by push_cast at hn ⊢; omega, hget, hid⟩

/-- filter_prog_chain_add on a chain that already holds the instance id is
a no-op reporting false. -/
theorem add_found_eq (c : Chain) (i vm r : Nat)
    (h : ∃ fp ∈ c, fp.fp_instance_id = i) :
    filter_prog_chain_add (some c) i vm r = (false, c) := by
  unfold filter_prog_chain_add
  have : c.any (fun fp => i = fp.fp_instance_id) = true := by
    obtain ⟨fp, hmem, hid⟩ := h
    exact List.any_eq_true.mpr ⟨fp, hmem, by simp [hid]⟩
  simp [this]

/-- filter_prog_chain_add on a chain without the instance id appends the
new node at the tail and reports true. -/
theorem add_not_found_eq (c : Chain) (i vm r : Nat)
    (h : ∀ fp ∈ c, fp.fp_instance_id ≠ i) :
    filter_prog_chain_add (some c) i vm r =
      (true, c ++ [⟨i, vm, r⟩]) := by
  unfold filter_prog_chain_add
  have : c.any (fun fp => i = fp.fp_instance_id) = false := by
    rw [List.any_eq_false]
    intro fp hmem
    simp [Ne.symm (h fp hmem)]
  simp [this]

/-- After an add, some entry of the chain holds the added instance id. -/
theorem add_mem_id (c : Chain) (i vm r : Nat) :
    ∃ fp ∈ (filter_prog_chain_add (some c) i vm r).2,
      fp.fp_instance_id = i := by
  by_cases h : ∃ fp ∈ c, fp.fp_instance_id = i
  · rw [add_found_eq c i vm r h]
    exact h
  · push_neg at h
    rw [add_not_found_eq c i vm r h]
    exact ⟨⟨i, vm, r⟩, by simp, rfl⟩

/-- filter_prog_chain_add preserves pairwise distinctness of instance ids. -/
theorem nodup_ids_add (c : Chain) (i vm r : Nat)
    (h : (c.map FilterProg.fp_instance_id).Nodup) :
    (((filter_prog_chain_add (some c) i vm r).2).map
      FilterProg.fp_instance_id).Nodup := by
  by_cases hf : ∃ fp ∈ c, fp.fp_instance_id = i
  · rw [add_found_eq c i vm r hf]
    exact h
  · push_neg at hf
    rw [add_not_found_eq c i vm r hf]
    rw [List.map_append]
    simp only [List.map_cons, List.map_nil]
    rw [List.nodup_append]
    refine ⟨h, List.nodup_singleton _, ?_⟩
    intro a ha hb
    simp only [List.mem_singleton] at hb
    obtain ⟨fp, hmem, rfl⟩ := List.mem_map.mp ha
    exact hf fp hmem (hb ▸ rfl)

/-- Claim C1, counterexample: the claim says the primitive registered under
id n is the one the spec enumerates under n for every n in 1..7, but
register_functions binds id 3 to map delete where the spec enumeration has
map add, and id 4 to map add where the spec enumeration has map delete. -/
theorem C1_counterexample :
    registeredAt 3 = some HostFn.mapDelete ∧
    specNumbering 3 = some HostFn.mapAdd ∧
    registeredAt 3 ≠ specNumbering 3 ∧
    registeredAt 4 = some HostFn.mapAdd ∧
    specNumbering 4 = some HostFn.mapDelete ∧
    registeredAt 4 ≠ specNumbering 4 := by decide

/-- Claim C1, amended: the primitives registered under ids 1..7 are
1 = map lookup, 2 = map update, 3 = map delete, 4 = map add,
5 = timestamp, 6 = hash, 7 = diagnostic print. -/
theorem C1_amended_registration :
    registeredAt 1 = some HostFn.mapLookup ∧
    registeredAt 2 = some HostFn.mapUpdate ∧
    registeredAt 3 = some HostFn.mapDelete ∧
    registeredAt 4 = some HostFn.mapAdd ∧
    registeredAt 5 = some HostFn.timeGetNs ∧
    registeredAt 6 = some HostFn.hash ∧
    registeredAt 7 = some HostFn.printf := by decide

/-- Claim C2, counterexample: on the chain [id 1, id 2] the running count
of id-2 occurrences reaches 1 at the second entry, so the claimed
running-count semantics (lookupByOrdinal) returns that entry for ordinal 1,
but filter_prog_chain_lookup returns not-found: its counter advances on
every entry, matching or not, and the loop breaks at the first id match
when that absolute position differs from the ordinal argument. -/
theorem C2_counterexample :
    filter_prog_chain_lookup (some (some [⟨1, 0, 0⟩, ⟨2, 0, 0⟩])) 2 1 =
      none ∧
    lookupByOrdinal (some (some [⟨1, 0, 0⟩, ⟨2, 0, 0⟩])) 2 1 =
      some ⟨2, 0, 0⟩ := by decide

/-- Claim C2, amended: lookup(C, i, n) scans the chain in order counting
every entry (so the count is the absolute 1-based position, not the number
of same-identity occurrences); it considers only the first entry whose
instance id equals i and returns it exactly when its absolute position
equals n, returning not-found in every other case. -/
theorem C2_amended_lookup (c : Chain) (id : Nat) (n : Int)
    (fp : FilterProg) :
    filter_prog_chain_lookup (some (some c)) id n = some fp ↔
      ∃ l1 l2, c = l1 ++ fp :: l2 ∧ (∀ x ∈ l1, id ≠ x.fp_instance_id) ∧
        id = fp.fp_instance_id ∧ n = ((l1.length + 1 : Nat) : Int) := by
  have h := lookupLoop_eq_some_iff c id n 0 fp
  simpa using h

/-- Claim C3, counterexample: the chain [id 1 at position 1, id 2 at
position 2] is built by two adds (no duplicate ids), yet
lookup(C, 2, 2) with ordinal 2 > 1 returns the id-2 entry instead of the
claimed not-found, because the code matches the ordinal against the
absolute chain position. -/
theorem C3_counterexample :
    (filter_prog_chain_add (some (filter_prog_chain_add none 1 10 20).2)
        2 30 40).2 = [⟨1, 10, 20⟩, ⟨2, 30, 40⟩] ∧
    filter_prog_chain_lookup (some (some [⟨1, 10, 20⟩, ⟨2, 30, 40⟩])) 2 2 =
      some ⟨2, 30, 40⟩ ∧
    (2 : Int) > 1 := by decide

/-- Claim C3, amended: add preserves pairwise distinctness of instance ids
(so chains built only by adds have no duplicate id), and on such a chain
lookup(C, i, n) returns the entry with id i exactly when that entry
occupies absolute 1-based position n of the chain; for every other n — in
particular every n > 1 when the entry with id i sits at a position other
than n, and every n when id i is absent — it returns not-found. -/
theorem C3_amended_nodup_lookup :
    (∀ (c : Chain) (i vm r : Nat),
      (c.map FilterProg.fp_instance_id).Nodup →
        (((filter_prog_chain_add (some c) i vm r).2).map
          FilterProg.fp_instance_id).Nodup) ∧
    (∀ (c : Chain) (id : Nat) (n : Int) (fp : FilterProg),
      (c.map FilterProg.fp_instance_id).Nodup →
        (filter_prog_chain_lookup (some (some c)) id n = some fp ↔
          ∃ k : Nat, n = ((k + 1 : Nat) : Int) ∧ c.get? k = some fp ∧
            id = fp.fp_instance_id)) := by
  refine ⟨fun c i vm r h => nodup_ids_add c i vm r h,
    fun c id n fp h => ?_⟩
  have hiff := lookupLoop_nodup_eq_some_iff c id n 0 fp h
  simpa using hiff

/-- Claim C3, witness for the amended theorem at concrete inputs. -/
theorem C3_amended_nodup_lookup_witness :
    (((filter_prog_chain_add (some [⟨1, 0, 0⟩]) 2 0 0).2).map
      FilterProg.fp_instance_id).Nodup ∧
    filter_prog_chain_lookup (some (some [⟨1, 0, 0⟩, ⟨2, 0, 0⟩])) 2 2 =
      some ⟨2, 0, 0⟩ :=
  ⟨C3_amended_nodup_lookup.1 [⟨1, 0, 0⟩] 2 0 0 (by decide),
   (C3_amended_nodup_lookup.2 [⟨1, 0, 0⟩, ⟨2, 0, 0⟩] 2 2 ⟨2, 0, 0⟩
     (by decide)).mpr ⟨1, by decide, by decide, by decide⟩⟩

/-- Claim C4, confirmed: lookup on a null chain pointer and on a pointer
to a null chain returns not-found; add on an absent chain lazily allocates
it and inserts the node, reporting inserted; free on an absent chain frees
nothing, and free on an empty chain frees no member; none of these
operations can fail. -/
theorem C4_absent_chain_safe (i : Nat) (n : Int) (vm r : Nat) :
    filter_prog_chain_lookup none i n = none ∧
    filter_prog_chain_lookup (some none) i n = none ∧
    filter_prog_chain_add none i vm r = (true, [⟨i, vm, r⟩]) ∧
    filter_prog_chain_free none = ([], none) ∧
    filter_prog_chain_free (some []) = ([], none) :=
  ⟨rfl, rfl, rfl, rfl, rfl⟩

/-- Claim C5, counterexample: the add part of the claim holds, but its
lookup part fails: starting from the chain [id 1], adding id 2 twice
leaves [id 1, id 2] unchanged after the second call, yet lookup(C, 2, 1)
returns not-found instead of the first-inserted id-2 entry, because that
entry sits at absolute position 2 while the ordinal argument is 1. -/
theorem C5_counterexample :
    filter_prog_chain_add (some [⟨1, 10, 20⟩]) 2 30 40 =
      (true, [⟨1, 10, 20⟩, ⟨2, 30, 40⟩]) ∧
    filter_prog_chain_add (some [⟨1, 10, 20⟩, ⟨2, 30, 40⟩]) 2 50 60 =
      (false, [⟨1, 10, 20⟩, ⟨2, 30, 40⟩]) ∧
    filter_prog_chain_lookup
      (some (some [⟨1, 10, 20⟩, ⟨2, 30, 40⟩])) 2 1 = none := by decide

/-- Claim C5, amended: if the chain already contains an entry with the
instance id, add leaves it unchanged and reports not inserted; otherwise
it appends the new entry at the tail and reports inserted; two immediately
consecutive adds with the same id leave the chain unchanged after the
second call; and lookup(C, i, 1) afterwards returns the first-inserted
entry when that entry stands at the head of the chain — in particular when
the chain was freshly allocated by the first add — rather than at an
arbitrary position. -/
theorem C5_amended_add :
    (∀ (c : Chain) (i vm r : Nat), (∃ fp ∈ c, fp.fp_instance_id = i) →
      filter_prog_chain_add (some c) i vm r = (false, c)) ∧
    (∀ (c : Chain) (i vm r : Nat), (∀ fp ∈ c, fp.fp_instance_id ≠ i) →
      filter_prog_chain_add (some c) i vm r =
        (true, c ++ [⟨i, vm, r⟩])) ∧
    (∀ (c : Chain) (i vm r vm2 r2 : Nat),
      filter_prog_chain_add (some (filter_prog_chain_add (some c) i vm r).2)
          i vm2 r2 =
        (false, (filter_prog_chain_add (some c) i vm r).2)) ∧
    (∀ (i vm r : Nat),
      filter_prog_chain_lookup
          (some (some (filter_prog_chain_add none i vm r).2)) i 1 =
        some ⟨i, vm, r⟩) := by
  refine ⟨fun c i vm r h => add_found_eq c i vm r h,
    fun c i vm r h => add_not_found_eq c i vm r h,
    fun c i vm r vm2 r2 =>
      add_found_eq _ i vm2 r2 (add_mem_id c i vm r),
    fun i vm r => ?_⟩
  show filter_prog_chain_lookup (some (some [⟨i, vm, r⟩])) i 1 =
    some ⟨i, vm, r⟩
  simp [filter_prog_chain_lookup, lookupLoop]

/-- Claim C5, witness for the amended theorem at concrete inputs. -/
theorem C5_amended_add_witness :
    filter_prog_chain_add (some [⟨1, 0, 0⟩]) 1 2 3 = (false, [⟨1, 0, 0⟩]) ∧
    filter_prog_chain_add (some [⟨1, 0, 0⟩]) 2 4 5 =
      (true, [⟨1, 0, 0⟩, ⟨2, 4, 5⟩]) :=
  ⟨C5_amended_add.1 [⟨1, 0, 0⟩] 1 2 3 ⟨⟨1, 0, 0⟩, by decide, rfl⟩,
   C5_amended_add.2.1 [⟨1, 0, 0⟩] 2 4 5 (by decide)⟩

/-- Claim C6, confirmed: each of the four map wrappers returns its
documented distinct failure result per cause — lookup null for absent map,
unset operation or null key; update -1 / -2 / -3 / -4 for absent map,
unset operation, null key, null item; add and delete -1 / -2 / -3 for
absent map, unset operation and null item / key — and in every non-failure
case delegates to the backend operation, returning its result verbatim. -/
theorem C6_map_failure_codes :
    (∀ key, ubpf_map_lookup none key = none) ∧
    (∀ m key, m.ops.map_lookup = none →
      ubpf_map_lookup (some m) key = none) ∧
    (∀ m f, m.ops.map_lookup = some f →
      ubpf_map_lookup (some m) none = none) ∧
    (∀ m f k, m.ops.map_lookup = some f →
      ubpf_map_lookup (some m) (some k) = f k) ∧
    (∀ key item, ubpf_map_update none key item = -1) ∧
    (∀ m key item, m.ops.map_update = none →
      ubpf_map_update (some m) key item = -2) ∧
    (∀ m f item, m.ops.map_update = some f →
      ubpf_map_update (some m) none item = -3) ∧
    (∀ m f k, m.ops.map_update = some f →
      ubpf_map_update (some m) (some k) none = -4) ∧
    (∀ m f k it, m.ops.map_update = some f →
      ubpf_map_update (some m) (some k) (some it) = f k it) ∧
    (∀ item, ubpf_map_add none item = -1) ∧
    (∀ m item, m.ops.map_add = none → ubpf_map_add (some m) item = -2) ∧
    (∀ m f, m.ops.map_add = some f → ubpf_map_add (some m) none = -3) ∧
    (∀ m f it, m.ops.map_add = some f →
      ubpf_map_add (some m) (some it) = f it) ∧
    (∀ key, ubpf_map_delete none key = -1) ∧
    (∀ m key, m.ops.map_delete = none →
      ubpf_map_delete (some m) key = -2) ∧
    (∀ m f, m.ops.map_delete = some f →
      ubpf_map_delete (some m) none = -3) ∧
    (∀ m f k, m.ops.map_delete = some f →
      ubpf_map_delete (some m) (some k) = f k) := by
  repeat' apply And.intro
  all_goals intros
  all_goals try rfl
  all_goals
    rename_i h
    first
    | (unfold ubpf_map_lookup; dsimp only; rw [h])
    | (unfold ubpf_map_update; dsimp only; rw [h])
    | (unfold ubpf_map_add; dsimp only; rw [h])
    | (unfold ubpf_map_delete; dsimp only; rw [h])

/-- Claim C6, witness: every failure cause and every delegation path of the
four wrappers, exercised on the sample and bare map handles. -/
theorem C6_map_failure_codes_witness :
    ubpf_map_lookup (some sampleMap) (some 4) = some 5 ∧
    ubpf_map_lookup (some sampleMap) none = none ∧
    ubpf_map_lookup (some bareMap) (some 4) = none ∧
    ubpf_map_update (some sampleMap) (some 2) (some 3) = 5 ∧
    ubpf_map_update (some bareMap) (some 2) (some 3) = -2 ∧
    ubpf_map_update (some sampleMap) none (some 3) = -3 ∧
    ubpf_map_update (some sampleMap) (some 2) none = -4 ∧
    ubpf_map_add (some sampleMap) (some 6) = 6 ∧
    ubpf_map_add (some bareMap) (some 6) = -2 ∧
    ubpf_map_add (some sampleMap) none = -3 ∧
    ubpf_map_delete (some sampleMap) (some 9) = 2 ∧
    ubpf_map_delete (some bareMap) (some 9) = -2 ∧
    ubpf_map_delete (some sampleMap) none = -3 := by
  obtain ⟨L1, L2, L3, L4, U1, U2, U3, U4, U5, A1, A2, A3, A4,
    D1, D2, D3, D4⟩ := C6_map_failure_codes
  refine ⟨L4 sampleMap _ 4 rfl, L3 sampleMap _ rfl, L2 bareMap (some 4) rfl,
    ?_, U2 bareMap (some 2) (some 3) rfl, U3 sampleMap _ (some 3) rfl,
    U4 sampleMap _ 2 rfl, ?_, A2 bareMap (some 6) rfl, A3 sampleMap _ rfl,
    ?_, D2 bareMap (some 9) rfl, D3 sampleMap _ rfl⟩
  · rw [U5 sampleMap _ 2 3 rfl]
    rfl
  · rw [A4 sampleMap _ 6 rfl]
    rfl
  · rw [D4 sampleMap _ 9 rfl]
    rfl

/-- Claim C7, confirmed: the hash primitive is deterministic — two
invocations over byte ranges with identical contents and the identical
length argument produce equal 32-bit results. -/
theorem C7_hash_deterministic (mem1 mem2 : Mem) (p1 p2 n : Nat)
    (h : ∀ i, i < n → mem1 (p1 + i) % 256 = mem2 (p2 + i) % 256) :
    ubpf_hash mem1 p1 n = ubpf_hash mem2 p2 n := by
  unfold ubpf_hash
  have hb : readBytes mem1 p1 (n % 2 ^ 32) =
      readBytes mem2 p2 (n % 2 ^ 32) := by
    unfold readBytes
    refine List.map_congr_left ?_
    intro i hi
    rw [List.mem_range] at hi
    exact h i (lt_of_lt_of_le hi (Nat.mod_le n _))
  rw [hb]

/-- Claim C7, witness: two memories holding the same four bytes at
different addresses hash to the same value. -/
theorem C7_hash_deterministic_witness :
    (∀ i, i < 4 →
      (fun a => a) (3 + i) % 256 = (fun a => a + 1) (2 + i) % 256) ∧
    ubpf_hash (fun a => a) 3 4 = ubpf_hash (fun a => a + 1) 2 4 :=
  ⟨by decide, C7_hash_deterministic (fun a => a) (fun a => a + 1) 3 2 4
    (by decide)⟩

/-- Claim C8, code bug: at the clock reading tv_sec = 1600000000,
tv_nsec = 1, the claim demands the exact value
1600000000 * 10 ^ 9 + 1 = 1600000000000000001, but the C expression
tv_nsec + tv_sec * 1.0e9 evaluates in double precision, whose 53-bit
significand cannot represent that value: the code returns
1600000000000000000, one nanosecond short. -/
theorem C8_timestamp_double_rounding :
    ubpf_time_get_ns 1600000000 1 = 1600000000000000000 ∧
    ubpf_time_get_ns 1600000000 1 ≠ 1600000000 * 1000000000 + 1 := by
  decide

/-- Claim C9, confirmed: on a parse/load failure the operation logs the
library diagnostic, frees its buffer and returns failure; on a
compile/verify failure likewise; on success it returns true having
allocated nothing; and on every path the buffers freed are exactly the
buffers the external library allocated, so none is leaked. -/
theorem C9_load_diagnostics (loadErr compileErr : Option String) :
    (∀ e, loadErr = some e →
      load_filter_prog loadErr compileErr =
        ⟨false, ["Failed to load code: " ++ e], [e]⟩) ∧
    (∀ e, loadErr = none → compileErr = some e →
      load_filter_prog loadErr compileErr =
        ⟨false, ["Failed to compile: " ++ e], [e]⟩) ∧
    (loadErr = none → compileErr = none →
      load_filter_prog loadErr compileErr = ⟨true, [], []⟩) ∧
    (load_filter_prog loadErr compileErr).freed =
      allocatedDiagnostics loadErr compileErr := by
  refine ⟨?_, ?_, ?_, ?_⟩
  · rintro e rfl
    rfl
  · rintro e rfl rfl
    rfl
  · rintro rfl rfl
    rfl
  · cases loadErr <;> cases compileErr <;> rfl

/-- Claim C9, witness: both failure modes at concrete diagnostics. -/
theorem C9_load_diagnostics_witness :
    load_filter_prog (some "bad elf") none =
      ⟨false, ["Failed to load code: bad elf"], ["bad elf"]⟩ ∧
    load_filter_prog none (some "bad prog") =
      ⟨false, ["Failed to compile: bad prog"], ["bad prog"]⟩ :=
  ⟨(C9_load_diagnostics (some "bad elf") none).1 "bad elf" rfl,
   (C9_load_diagnostics none (some "bad prog")).2.1 "bad prog" rfl rfl⟩

/-- Claim C10, confirmed: ubpf_hash truncates its 64-bit length argument
to the low 32 bits before hashing, so two lengths congruent mod 2 ^ 32
hash identically over the same pointer and memory. -/
theorem C10_hash_truncates_length (mem : Mem) (p : Nat) (n m : Nat)
    (h : n % 2 ^ 32 = m % 2 ^ 32) :
    ubpf_hash mem p n = ubpf_hash mem p m := by
  unfold ubpf_hash
  rw [h]

/-- Claim C10, witness: length 2 ^ 32 + 5 hashes like length 5. -/
theorem C10_hash_truncates_length_witness :
    (2 ^ 32 + 5) % 2 ^ 32 = 5 % 2 ^ 32 ∧
    ubpf_hash (fun _ => 0) 0 (2 ^ 32 + 5) = ubpf_hash (fun _ => 0) 0 5 :=
  ⟨by decide, C10_hash_truncates_length (fun _ => 0) 0 (2 ^ 32 + 5) 5
    (by decide)⟩

end Oko
